import Mathlib

/-!
# Verification of the ncc code generator (`src/ncc/src/codegen.rs`)

Shallow embedding of the ncc compiler's code generator.  The emitters
(`Unit.gen_code`, `Function.gen_code`, `Stmt.gen_code`, `Expr.gen_code`,
`emit_int_op`, `emit_cmp_op`, `gen_bin_op`, `gen_assign`) are translated
line by line from `src/ncc/src/codegen.rs`.  Output is modelled as a list
of structured output lines (`Line`); rendering them with `renderLines`
reproduces the text the Rust code appends to its output `String`.

Rust `panic!` / `todo!` / failed `assert!` are modelled as the error
`GenErr.panicked`; `ParseError::msg_only` as `GenErr.parseError`.
Recursion is bounded by an explicit fuel parameter (first argument of each
recursive emitter); exhausted fuel yields `GenErr.outOfFuel`, so any
`.ok` result is a faithful run of the Rust code.

The statement emitter wraps each expression-emitter result in an
`Item.exprCode` node recording the emission boundary (and whether the
expression was a `Void`-typed `Asm`, which the Rust statement emitter
pattern-matches on).  `flattenItems` erases the boundaries, recovering the
exact flat output of the Rust code; the boundaries are used only for the
operand-stack accounting of statements.
-/

namespace Ncc

/-- Error outcomes of code generation.  `parseError` models
`ParseError::msg_only`, `panicked` models Rust `panic!`/`todo!`/`assert!`,
and `outOfFuel` is the artificial out-of-fuel outcome of the bounded
recursion (never produced by the Rust code). -/
inductive GenErr where
  | parseError (msg : String)
  | panicked (msg : String)
  | outOfFuel
  deriving Repr, DecidableEq

/-- Types of the ncc language.  Translated from the `Type` enum used by
`codegen.rs` (spec §3): `Void`, `UInt(n)`, `Int(n)`, `Pointer`, `Array`,
`Fun`.  The array size is modelled as a static `Nat` (spec §3: a
statically sized region). -/
inductive Ty where
  | void
  | uint (n : Nat)
  | int (n : Nat)
  | pointer (t : Ty)
  | array (elem_type : Ty) (size : Nat)
  | fnTy (ret : Ty)
  deriving Repr, DecidableEq

/-- Modelled from the spec: `Type::sizeof` lives in `crate::types`, which is
not under `src/` (the copy in `src/ncc/src/ast.rs` is stale).  Spec §3:
`sizeof = n/8` for `UInt(n)`/`Int(n)`, pointers are 8 bytes, an array is a
statically sized region (element size times count).  The Rust function
panics on `Void`; the model returns 0 there (type-checked inputs never ask
for it). -/
def Ty.sizeof : Ty → Nat
  | .void => 0
  | .uint n => n / 8
  | .int n => n / 8
  | .pointer _ => 8
  | .array e n => e.sizeof * n
  | .fnTy _ => 0

/-- Modelled from the spec: `is_signed` lives in `crate::types` (not under
`src/`).  Spec §3: `is_signed` distinguishes `Int(n)` from `UInt(n)`. -/
def Ty.is_signed : Ty → Bool
  | .int _ => true
  | _ => false

/-- Modelled from the spec: `align_bytes` lives in `crate::types` (not under
`src/`).  Spec §4.2: natural alignment equals `sizeof` for scalars and
pointers, and the element alignment for arrays. -/
def Ty.align_bytes : Ty → Nat
  | .array e _ => e.align_bytes
  | t => t.sizeof

/-- Modelled from the spec: the `Display` impl for `Type` lives in
`crate::types` (not under `src/`).  Only used in emitted comment lines. -/
def Ty.display : Ty → String
  | .void => "void"
  | .uint n => s!"u{n}"
  | .int n => s!"i{n}"
  | .pointer t => t.display ++ "*"
  | .array e n => e.display ++ s!"[{n}]"
  | .fnTy _ => "fun"

/-- Variable/function declaration, translated from the `Decl` enum
(`src/ncc/src/ast.rs`, extended with the `t` field on `Fun` that
`codegen.rs` pattern-matches).  `loc` is `Decl::Local` (`local` is a Lean
keyword), `fn` is `Decl::Fun` (`fun` is a Lean keyword). -/
inductive Decl where
  | global (name : String) (t : Ty)
  | arg (idx : Nat) (t : Ty)
  | loc (idx : Nat) (t : Ty)
  | fn (name : String) (t : Ty)
  deriving Repr, DecidableEq

/-- `Decl::get_type` (`src/ncc/src/ast.rs`): the declared type. -/
def Decl.get_type : Decl → Ty
  | .global _ t => t
  | .arg _ t => t
  | .loc _ t => t
  | .fn _ t => t

/-- Unary operators (`UnOp` in the AST; spec §3). -/
inductive UnOp where
  | minus
  | not
  | bitNot
  | deref
  | addressOf
  deriving Repr, DecidableEq

/-- Binary operators (`BinOp` in the AST; spec §3). -/
inductive BinOp where
  | assign
  | comma
  | and
  | or
  | bitAnd
  | bitOr
  | bitXor
  | lshift
  | rshift
  | add
  | sub
  | mul
  | div
  | mod
  | eq
  | ne
  | lt
  | le
  | gt
  | ge
  deriving Repr, DecidableEq

/-- Expressions, translated from the `Expr` enum that `codegen.rs`
pattern-matches (spec §3).  `string` is `Expr::String`. -/
inductive Expr where
  | int (v : Int)
  | string (s : String)
  | ref (decl : Decl)
  | cast (new_type : Ty) (child : Expr)
  | sizeofExpr (child : Expr)
  | sizeofType (t : Ty)
  | unary (op : UnOp) (child : Expr)
  | binary (op : BinOp) (lhs rhs : Expr)
  | ternary (test_expr then_expr else_expr : Expr)
  | call (callee : Expr) (args : List Expr)
  | asm (text : String) (args : List Expr) (out_type : Ty)
  deriving Repr

/-- Statements, translated from the `Stmt` enum that `codegen.rs`
pattern-matches (spec §3).  `breakStmt`/`continueStmt` are
`Stmt::Break`/`Stmt::Continue` (Lean keywords). -/
inductive Stmt where
  | expr (e : Expr)
  | returnVoid
  | returnExpr (e : Expr)
  | breakStmt
  | continueStmt
  | ifStmt (test_expr : Expr) (then_stmt : Stmt) (else_stmt : Option Stmt)
  | whileStmt (test_expr : Expr) (body_stmt : Stmt)
  | doWhile (test_expr : Expr) (body_stmt : Stmt)
  | forStmt (init_stmt : Option Stmt) (test_expr : Expr) (incr_expr : Expr) (body_stmt : Stmt)
  | block (stmts : List Stmt)
  | varDecl (var_type : Ty) (var_name : String) (init_expr : Expr)
  deriving Repr

/-- A function declaration (`Function` in the AST; spec §3). -/
structure Function where
  name : String
  ret_type : Ty
  params : List (Ty × String)
  body : Stmt
  num_locals : Nat
  deriving Repr

/-- A global variable declaration, with the optional initializer that
`codegen.rs` matches on (`global.init_expr`). -/
structure Global where
  name : String
  var_type : Ty
  init_expr : Option Expr
  deriving Repr

/-- A compilation unit (`Unit` in the AST; spec §3). -/
structure Unit where
  global_vars : List Global
  fun_decls : List Function
  deriving Repr

/-- Modelled from the spec: `Expr::eval_type` lives in `crate::types`
(not under `src/`).  Spec §3 guarantees every expression is annotated with
a concrete type by the prior type-check pass (references carry the type on
their `Decl`, a cast has its target type, comparisons and logical
operators produce a small unsigned integer, arithmetic on a pointer or
array left operand keeps that type, and integer arithmetic takes the
wider operand width). -/
def Expr.eval_type : Expr → Except GenErr Ty
  | .int _ => .ok (.int 64)
  | .string _ => .ok (.pointer (.uint 8))
  | .ref d => .ok d.get_type
  | .cast t _ => .ok t
  | .sizeofExpr _ => .ok (.uint 64)
  | .sizeofType _ => .ok (.uint 64)
  | .unary op c =>
    match op with
    | .deref => do
      let t ← c.eval_type
      match t with
      | .pointer e => .ok e
      | _ => .error (.panicked "deref of non-pointer")
    | .not => .ok (.uint 8)
    | .addressOf => do
      let t ← c.eval_type
      .ok (.pointer t)
    | _ => c.eval_type
  | .binary op l r =>
    match op with
    | .assign => l.eval_type
    | .comma => r.eval_type
    | .and | .or | .eq | .ne | .lt | .le | .gt | .ge => .ok (.uint 8)
    | _ => do
      let lt ← l.eval_type
      let rt ← r.eval_type
      match lt, rt with
      | .pointer e, _ => .ok (.pointer e)
      | .array e n, _ => .ok (.array e n)
      | .int m, .int n => .ok (.int (max m n))
      | .uint m, .uint n => .ok (.uint (max m n))
      | .int m, .uint n => .ok (.uint (max m n))
      | .uint m, .int n => .ok (.uint (max m n))
      | _, _ => .error (.panicked "eval_type: invalid operands")
  | .ternary _ a _ => a.eval_type
  | .call callee _ => do
    let t ← callee.eval_type
    match t with
    | .fnTy ret => .ok ret
    | _ => .error (.panicked "call of non-function")
  | .asm _ _ t => .ok t

/-- `SymGen::gen_sym` (`src/ncc/src/codegen.rs`): produce the label
`_<prefix>_<n>` and bump the counter. -/
def gen_sym (pre : String) (next_id : Nat) : String × Nat :=
  (s!"_{pre}_{next_id}", next_id + 1)

/-- Instructions emitted by the generator, one constructor per mnemonic
written by `codegen.rs`.  `op base bits` is the family of two-operand
integer instructions emitted as `{base}{bits};` (e.g. `add_u32`,
`mul_u64`, `lt_i32`); `asm` is an `Expr::Asm` text spliced verbatim. -/
inductive Instr where
  | push (v : Int)
  | pushSym (name : String)
  | pop
  | dup
  | swap
  | getn (n : Nat)
  | load_u (bits : Nat)
  | store_u (bits : Nat)
  | sx_i32_i64
  | trunc_u (bits : Nat)
  | not_u (bits : Nat)
  | op (base : String) (bits : Nat)
  | jmp (label : String)
  | jz (label : String)
  | jnz (label : String)
  | call (name : String) (argc : Nat)
  | ret
  | exit
  | get_arg (idx : Nat)
  | set_arg (idx : Nat)
  | get_local (idx : Nat)
  | set_local (idx : Nat)
  | asm (text : String)
  deriving Repr, DecidableEq

/-- One output line of the generator: an instruction, a label definition,
a comment line, an assembler directive, or a blank line. -/
inductive Line where
  | insn (i : Instr)
  | label (name : String)
  | comment (text : String)
  | directive (text : String)
  | blank
  deriving Repr, DecidableEq

/-- An element of the statement emitter's output: either a single output
line, or the code of one expression-emitter call together with the flag
telling whether the statement emitter matched it as an `Asm` with `Void`
output type. -/
inductive Item where
  | line (l : Line)
  | exprCode (code : List Line) (voidAsm : Bool)
  deriving Repr, DecidableEq

/-- Erase the expression-emission boundaries, recovering the flat output
of the Rust statement emitter. -/
def flattenItems : List Item → List Line
  | [] => []
  | .line l :: rest => l :: flattenItems rest
  | .exprCode c _ :: rest => c ++ flattenItems rest

/-- Render one instruction exactly as `codegen.rs` formats it
(semicolon-terminated, without the trailing newline). -/
def Instr.render : Instr → String
  | .push v => s!"push {v};"
  | .pushSym name => s!"push {name};"
  | .pop => "pop;"
  | .dup => "dup;"
  | .swap => "swap;"
  | .getn n => s!"getn {n};"
  | .load_u bits => s!"load_u{bits};"
  | .store_u bits => s!"store_u{bits};"
  | .sx_i32_i64 => "sx_i32_i64;"
  | .trunc_u bits => s!"trunc_u{bits};"
  | .not_u bits => s!"not_u{bits};"
  | .op base bits => s!"{base}{bits};"
  | .jmp l => s!"jmp {l};"
  | .jz l => s!"jz {l};"
  | .jnz l => s!"jnz {l};"
  | .call name argc => s!"call {name}, {argc};"
  | .ret => "ret;"
  | .exit => "exit;"
  | .get_arg idx => s!"get_arg {idx};"
  | .set_arg idx => s!"set_arg {idx};"
  | .get_local idx => s!"get_local {idx};"
  | .set_local idx => s!"set_local {idx};"
  | .asm text => text

/-- Render one output line (without the trailing newline). -/
def Line.render : Line → String
  | .insn i => i.render
  | .label name => name ++ ":"
  | .comment text => text
  | .directive text => text
  | .blank => ""

/-- Render a line list to the exact text the Rust generator appends to its
output string (each line newline-terminated). -/
def renderLines (ls : List Line) : String :=
  String.join (ls.map (fun l => l.render ++ "\n"))

/-- The signed-comparison mnemonic bases passed by `gen_bin_op` to
`emit_cmp_op` (`src/ncc/src/codegen.rs` lines 745-767; the operator table
of spec §4.6).  Empty for non-comparison operators. -/
def cmpSignedName : BinOp → String
  | .eq => "eq_u"
  | .ne => "ne_u"
  | .lt => "lt_i"
  | .le => "le_i"
  | .gt => "gt_i"
  | .ge => "ge_i"
  | _ => ""

/-- The unsigned-comparison mnemonic bases passed by `gen_bin_op` to
`emit_cmp_op` (`src/ncc/src/codegen.rs` lines 745-767).  Empty for
non-comparison operators. -/
def cmpUnsignedName : BinOp → String
  | .eq => "eq_u"
  | .ne => "ne_u"
  | .lt => "lt_u"
  | .le => "le_u"
  | .gt => "gt_u"
  | .ge => "ge_u"
  | _ => ""

/-- The comparison width rule of the claim (spec §4.6): the 32-bit
suffix when both operands are integer types whose maximal width is at
most 32 bits, and the 64-bit suffix otherwise. -/
def cmpBits : Ty → Ty → Nat
  | .int m, .uint n => if max m n ≤ 32 then 32 else 64
  | .uint m, .int n => if max m n ≤ 32 then 32 else 64
  | .int m, .int n => if max m n ≤ 32 then 32 else 64
  | .uint m, .uint n => if max m n ≤ 32 then 32 else 64
  | _, _ => 64

/-- Whether a type is an integer type (`UInt` or `Int`). -/
def Ty.isIntTy : Ty → Bool
  | .uint _ => true
  | .int _ => true
  | _ => false

/-- Whether an output line is an instruction (as opposed to a label,
comment, directive or blank line). -/
def Line.isInsn : Line → Bool
  | .insn _ => true
  | _ => false

/-- `emit_int_op` (`src/ncc/src/codegen.rs` lines 540-553): emit one
integer operation.  The Rust `assert!(out_bits <= 64)` is modelled as a
`panicked` error. -/
def emit_int_op (out_type : Ty) (signed_op unsigned_op : String) :
    Except GenErr (List Line) :=
  let out_bits := out_type.sizeof * 8
  if out_bits > 64 then
    .error (.panicked "assertion failed: out_bits <= 64")
  else
    let op_bits := if out_bits == 64 then 64 else 32
    let op := if out_type.is_signed then signed_op else unsigned_op
    .ok ([.insn (.op op op_bits)] ++
      (if out_bits < 32 then [.insn (.trunc_u out_bits)] else []))

/-- `emit_cmp_op` (`src/ncc/src/codegen.rs` lines 556-578): emit one
comparison operation. -/
def emit_cmp_op (lhs_type rhs_type : Ty) (signed_op unsigned_op : String) :
    List Line :=
  let is_signed := lhs_type.is_signed && rhs_type.is_signed
  let num_bits : Nat :=
    match lhs_type, rhs_type with
    | .int m, .uint n => max m n
    | .uint m, .int n => max m n
    | .int m, .int n => max m n
    | .uint m, .uint n => max m n
    | _, _ => 64
  if num_bits ≤ 32 then
    if is_signed then [.insn (.op signed_op 32)] else [.insn (.op unsigned_op 32)]
  else
    if is_signed then [.insn (.op signed_op 64)] else [.insn (.op unsigned_op 64)]

mutual

/-- `Expr::gen_code` (`src/ncc/src/codegen.rs` lines 358-537): emit the
rvalue code of one expression, threading the fresh-symbol counter.  The
first argument is the recursion fuel. -/
def Expr.gen_code : Nat → Expr → Nat → Except GenErr (List Line × Nat)
  | 0, _, _ => .error .outOfFuel
  | _ + 1, .int v, sym => .ok ([.insn (.push v)], sym)
  | _ + 1, .ref decl, sym =>
    match decl with
    | .arg idx _ => .ok ([.insn (.get_arg idx)], sym)
    | .loc idx _ => .ok ([.insn (.get_local idx)], sym)
    | .global name t =>
      match t with
      | .uint n => .ok ([.insn (.pushSym name), .insn (.load_u n)], sym)
      | .int 64 => .ok ([.insn (.pushSym name), .insn (.load_u 64)], sym)
      | .int 32 =>
        .ok ([.insn (.pushSym name), .insn (.load_u 32), .insn .sx_i32_i64], sym)
      | .pointer _ => .ok ([.insn (.pushSym name)], sym)
      | .fnTy _ => .ok ([.insn (.pushSym name)], sym)
      | .array _ _ => .ok ([.insn (.pushSym name)], sym)
      | _ => .error (.panicked "todo: global load")
    | .fn name _ => .ok ([.insn (.pushSym name)], sym)
  | fuel + 1, .cast new_type child, sym => do
    let child_type ← child.eval_type
    let (c, sym) ← child.gen_code fuel sym
    match new_type, child_type with
    | .uint _, .uint _ => .ok (c, sym)
    | .uint m, .int n =>
      if m ≥ n then .ok (c, sym)
      else .ok (c ++ [.insn (.trunc_u m)], sym)
    | .int m, .uint n =>
      if m ≥ n then .ok (c, sym)
      else .ok (c ++ [.insn (.trunc_u m)], sym)
    | .pointer _, .pointer _ => .ok (c, sym)
    | .pointer _, .array _ _ => .ok (c, sym)
    | .uint 64, .pointer _ => .ok (c, sym)
    | .pointer _, .uint 64 => .ok (c, sym)
    | _, _ => .error (.panicked "cannot cast")
  | _ + 1, .sizeofExpr child, sym => do
    let t ← child.eval_type
    .ok ([.insn (.push t.sizeof)], sym)
  | _ + 1, .sizeofType t, sym => .ok ([.insn (.push t.sizeof)], sym)
  | fuel + 1, .unary op child, sym => do
    let (c, sym) ← child.gen_code fuel sym
    match op with
    | .deref => do
      let child_type ← child.eval_type
      -- A pointer to an array is the array itself: no load.
      match child_type with
      | .pointer t =>
        match t with
        | .array _ _ => .ok (c, sym)
        | _ => .ok (c ++ [.insn (.load_u (t.sizeof * 8))], sym)
      | _ => .error (.panicked "elem_type of non-pointer")
    | .minus =>
      .ok (c ++ [.insn (.push 0), .insn .swap, .insn (.op "sub_u" 64)], sym)
    | .bitNot => do
      let child_type ← child.eval_type
      let num_bits := child_type.sizeof * 8
      let op_bits := if num_bits ≤ 32 then 32 else 64
      .ok (c ++ [.insn (.not_u op_bits)] ++
        (if num_bits < 32 then [.insn (.trunc_u num_bits)] else []), sym)
    | .not => .ok (c ++ [.insn (.push 0), .insn (.op "eq_u" 64)], sym)
    | .addressOf => .error (.panicked "todo: unary op")
  | fuel + 1, .binary op lhs rhs, sym => do
    let out_type ← (Expr.binary op lhs rhs).eval_type
    gen_bin_op fuel op lhs rhs out_type sym
  | fuel + 1, .ternary test_expr then_expr else_expr, sym => do
    let (false_label, sym) := gen_sym "and_false" sym
    let (done_label, sym) := gen_sym "and_done" sym
    let (tc, sym) ← test_expr.gen_code fuel sym
    let (ac, sym) ← then_expr.gen_code fuel sym
    let (bc, sym) ← else_expr.gen_code fuel sym
    .ok (tc ++ [.insn (.jz false_label)] ++ ac ++ [.insn (.jmp done_label)] ++
      [.label false_label] ++ bc ++ [.label done_label], sym)
  | fuel + 1, .call callee args, sym =>
    match callee with
    | .ref (.fn name _) => do
      let (acode, sym) ← genArgs fuel args sym
      .ok (acode ++ [.insn (.call name args.length)], sym)
    | _ => .error (.panicked "todo: indirect call")
  | fuel + 1, .asm text args _, sym => do
    let (acode, sym) ← genArgs fuel args sym
    .ok (acode ++ [.insn (.asm text)], sym)
  | _ + 1, .string _, _ => .error (.panicked "todo: expr")
termination_by structural fuel _ _ => fuel

/-- The argument loop of `Expr::Call` / `Expr::Asm` in `Expr::gen_code`:
emit each argument's code left to right. -/
def genArgs : Nat → List Expr → Nat → Except GenErr (List Line × Nat)
  | 0, _, _ => .error .outOfFuel
  | _ + 1, [], sym => .ok ([], sym)
  | fuel + 1, arg :: rest, sym => do
    let (c, sym) ← arg.gen_code fuel sym
    let (cs, sym) ← genArgs fuel rest sym
    .ok (c ++ cs, sym)
termination_by structural fuel _ _ => fuel

/-- `gen_bin_op` (`src/ncc/src/codegen.rs` lines 580-773): emit one binary
operation given the expression's output type. -/
def gen_bin_op : Nat → BinOp → Expr → Expr → Ty → Nat →
    Except GenErr (List Line × Nat)
  | 0, _, _, _, _, _ => .error .outOfFuel
  | fuel + 1, op, lhs, rhs, out_type, sym =>
    -- Assignments are different from other kinds of expressions
    if op = .assign then do
      let (items, sym) ← gen_assign fuel lhs rhs sym true
      .ok (flattenItems items, sym)
    -- Comma sequencing operator: (a, b)
    else if op = .comma then do
      let (lc, sym) ← lhs.gen_code fuel sym
      let (rc, sym) ← rhs.gen_code fuel sym
      .ok (lc ++ [.insn .pop] ++ rc, sym)
    -- Logical AND (a && b)
    else if op = .and then do
      let (false_label, sym) := gen_sym "and_false" sym
      let (done_label, sym) := gen_sym "and_done" sym
      let (lc, sym) ← lhs.gen_code fuel sym
      let (rc, sym) ← rhs.gen_code fuel sym
      .ok (lc ++ [.insn (.jz false_label)] ++ rc ++ [.insn (.jz false_label)] ++
        [.insn (.push 1), .insn (.jmp done_label), .label false_label,
         .insn (.push 0), .label done_label], sym)
    -- Logical OR (a || b)
    else if op = .or then do
      let (true_label, sym) := gen_sym "or_true" sym
      let (done_label, sym) := gen_sym "or_done" sym
      let (lc, sym) ← lhs.gen_code fuel sym
      let (rc, sym) ← rhs.gen_code fuel sym
      .ok (lc ++ [.insn (.jnz true_label)] ++ rc ++ [.insn (.jnz true_label)] ++
        [.insn (.push 0), .insn (.jmp done_label), .label true_label,
         .insn (.push 1), .label done_label], sym)
    else do
      let (lc, sym) ← lhs.gen_code fuel sym
      let (rc, sym) ← rhs.gen_code fuel sym
      let lhs_type ← lhs.eval_type
      let rhs_type ← rhs.eval_type
      let signed_op := lhs_type.is_signed && rhs_type.is_signed
      match op with
      | .bitAnd => do
        let c ← emit_int_op out_type "and_u" "and_u"
        .ok (lc ++ rc ++ c, sym)
      | .bitOr => do
        let c ← emit_int_op out_type "or_u" "or_u"
        .ok (lc ++ rc ++ c, sym)
      | .bitXor => do
        let c ← emit_int_op out_type "xor_u" "xor_u"
        .ok (lc ++ rc ++ c, sym)
      | .lshift => do
        let c ← emit_int_op out_type "lshift_u" "lshift_u"
        .ok (lc ++ rc ++ c, sym)
      | .rshift => do
        let c ← emit_int_op out_type "rshift_i" "rshift_u"
        .ok (lc ++ rc ++ c, sym)
      | .add =>
        match lhs_type, rhs_type with
        | .pointer b, .uint _ =>
          .ok (lc ++ rc ++ [.insn (.push b.sizeof), .insn (.op "mul_u" 64),
            .insn (.op "add_u" 64)], sym)
        | .pointer b, .int _ =>
          .ok (lc ++ rc ++ [.insn (.push b.sizeof), .insn (.op "mul_u" 64),
            .insn (.op "add_u" 64)], sym)
        | .array elem_type _, .uint _ =>
          .ok (lc ++ rc ++ [.insn (.push elem_type.sizeof), .insn (.op "mul_u" 64),
            .insn (.op "add_u" 64)], sym)
        | .array elem_type _, .int _ =>
          .ok (lc ++ rc ++ [.insn (.push elem_type.sizeof), .insn (.op "mul_u" 64),
            .insn (.op "add_u" 64)], sym)
        | .int _, .uint _ | .uint _, .int _ | .int _, .int _ | .uint _, .uint _ => do
          let c ← emit_int_op out_type "add_u" "add_u"
          .ok (lc ++ rc ++ c, sym)
        | _, _ => .error (.panicked "todo: add operands")
      | .sub =>
        match lhs_type, rhs_type with
        | .pointer b, .uint _ =>
          .ok (lc ++ rc ++ [.insn (.push b.sizeof), .insn (.op "mul_u" 64),
            .insn (.op "sub_u" 64)], sym)
        | .pointer b, .int _ =>
          .ok (lc ++ rc ++ [.insn (.push b.sizeof), .insn (.op "mul_u" 64),
            .insn (.op "sub_u" 64)], sym)
        | .int _, .uint _ | .uint _, .int _ | .int _, .int _ | .uint _, .uint _ => do
          let c ← emit_int_op out_type "sub_u" "sub_u"
          .ok (lc ++ rc ++ c, sym)
        | _, _ => .error (.panicked "todo: sub operands")
      | .mul => .ok (lc ++ rc ++ [.insn (.op "mul_u" 64)], sym)
      | .div =>
        if signed_op then .ok (lc ++ rc ++ [.insn (.op "div_i" 64)], sym)
        else .ok (lc ++ rc ++ [.insn (.op "div_u" 64)], sym)
      | .mod =>
        if signed_op then .ok (lc ++ rc ++ [.insn (.op "mod_i" 64)], sym)
        else .ok (lc ++ rc ++ [.insn (.op "mod_u" 64)], sym)
      | .eq => .ok (lc ++ rc ++ emit_cmp_op lhs_type rhs_type "eq_u" "eq_u", sym)
      | .ne => .ok (lc ++ rc ++ emit_cmp_op lhs_type rhs_type "ne_u" "ne_u", sym)
      | .lt => .ok (lc ++ rc ++ emit_cmp_op lhs_type rhs_type "lt_i" "lt_u", sym)
      | .le => .ok (lc ++ rc ++ emit_cmp_op lhs_type rhs_type "le_i" "le_u", sym)
      | .gt => .ok (lc ++ rc ++ emit_cmp_op lhs_type rhs_type "gt_i" "gt_u", sym)
      | .ge => .ok (lc ++ rc ++ emit_cmp_op lhs_type rhs_type "ge_i" "ge_u", sym)
      | _ => .error (.panicked "todo: bin op")
termination_by structural fuel _ _ _ _ _ => fuel

/-- `gen_assign` (`src/ncc/src/codegen.rs` lines 775-868): emit one
assignment, in value-needed (`need_value = true`) or value-discarded
mode.  The output wraps each sub-expression emission in `Item.exprCode`. -/
def gen_assign : Nat → Expr → Expr → Nat → Bool →
    Except GenErr (List Item × Nat)
  | 0, _, _, _, _ => .error .outOfFuel
  | fuel + 1, lhs, rhs, sym, need_value =>
    match lhs with
    | .unary op child =>
      match op with
      | .deref => do
        let ptr_type ← child.eval_type
        match ptr_type with
        | .pointer t =>
          let elem_bits := t.sizeof * 8
          if need_value then do
            -- Evaluate the value expression, then the address expression
            let (rc, sym) ← rhs.gen_code fuel sym
            let (cc, sym) ← child.gen_code fuel sym
            .ok ([.exprCode rc false, .exprCode cc false,
              .line (.insn (.getn 1)), .line (.insn (.store_u elem_bits))], sym)
          else do
            -- Evaluate the address expression, then the value expression
            let (cc, sym) ← child.gen_code fuel sym
            let (rc, sym) ← rhs.gen_code fuel sym
            .ok ([.exprCode cc false, .exprCode rc false,
              .line (.insn (.store_u elem_bits))], sym)
        | _ => .error (.panicked "elem_type of non-pointer")
      | _ => .error (.panicked "todo: assign lhs")
    | .ref decl =>
      match decl with
      | .arg idx _ => do
        let (rc, sym) ← rhs.gen_code fuel sym
        .ok ([.exprCode rc false] ++
          (if need_value then [.line (.insn .dup)] else []) ++
          [.line (.insn (.set_arg idx))], sym)
      | .loc idx _ => do
        let (rc, sym) ← rhs.gen_code fuel sym
        .ok ([.exprCode rc false] ++
          (if need_value then [.line (.insn .dup)] else []) ++
          [.line (.insn (.set_local idx))], sym)
      | .global name t => do
        let pre ←
          if need_value then do
            let (rc, sym') ← rhs.gen_code fuel sym
            pure (([.exprCode rc false, .line (.insn (.pushSym name)),
              .line (.insn (.getn 1))] : List Item), sym')
          else do
            let (rc, sym') ← rhs.gen_code fuel sym
            pure (([.line (.insn (.pushSym name)), .exprCode rc false] : List Item), sym')
        match t with
        | .uint n => .ok (pre.1 ++ [.line (.insn (.store_u n))], pre.2)
        | .int n => .ok (pre.1 ++ [.line (.insn (.store_u n))], pre.2)
        | .pointer _ => .ok (pre.1 ++ [.line (.insn (.store_u 64))], pre.2)
        | _ => .error (.panicked "todo: global store")
      | _ => .error (.panicked "todo: assign decl")
    | _ => .error (.panicked "todo: assign lhs")
termination_by structural fuel _ _ _ _ => fuel

end

mutual

/-- `Stmt::gen_code` (`src/ncc/src/codegen.rs` lines 186-356): emit the
code of one statement given the enclosing break and continue target
labels.  Each expression-emitter call is wrapped in `Item.exprCode`. -/
def Stmt.gen_code : Nat → Stmt → Option String → Option String → Nat →
    Except GenErr (List Item × Nat)
  | 0, _, _, _, _ => .error .outOfFuel
  | fuel + 1, .expr e, _, _, sym =>
    match e with
    -- For assignment expressions as statements,
    -- avoid generating output that we would then need to pop
    | .binary .assign lhs rhs => gen_assign fuel lhs rhs sym false
    -- For asm expressions with void output type, don't pop
    | .asm text args .void => do
      let (c, sym) ← (Expr.asm text args .void).gen_code fuel sym
      .ok ([.exprCode c true], sym)
    | _ => do
      let (c, sym) ← e.gen_code fuel sym
      .ok ([.exprCode c false, .line (.insn .pop)], sym)
  | _ + 1, .breakStmt, break_label, _, sym =>
    match break_label with
    | some label => .ok ([.line (.insn (.jmp label))], sym)
    | none => .error (.parseError "break outside of loop context")
  | _ + 1, .continueStmt, _, cont_label, sym =>
    match cont_label with
    | some label => .ok ([.line (.insn (.jmp label))], sym)
    | none => .error (.parseError "continue outside of loop context")
  | _ + 1, .returnVoid, _, _, sym =>
    .ok ([.line (.insn (.push 0)), .line (.insn .ret)], sym)
  | fuel + 1, .returnExpr e, _, _, sym =>
    match e with
    | .asm text args .void => do
      let (c, sym) ← (Expr.asm text args .void).gen_code fuel sym
      .ok ([.exprCode c true, .line (.insn (.push 0)), .line (.insn .ret)], sym)
    | _ => do
      let (c, sym) ← e.gen_code fuel sym
      .ok ([.exprCode c false, .line (.insn .ret)], sym)
  | fuel + 1, .ifStmt test_expr then_stmt else_stmt, break_label, cont_label, sym => do
    let (tc, sym) ← test_expr.gen_code fuel sym
    let (false_label, sym) := gen_sym "if_false" sym
    match else_stmt with
    | some else_stmt => do
      let (join_label, sym) := gen_sym "if_join" sym
      let (ti, sym) ← then_stmt.gen_code fuel break_label cont_label sym
      let (ei, sym) ← else_stmt.gen_code fuel break_label cont_label sym
      .ok ([.exprCode tc false, .line (.insn (.jz false_label))] ++ ti ++
        [.line (.insn (.jmp join_label)), .line (.label false_label)] ++ ei ++
        [.line (.label join_label)], sym)
    | none => do
      let (ti, sym) ← then_stmt.gen_code fuel break_label cont_label sym
      .ok ([.exprCode tc false, .line (.insn (.jz false_label))] ++ ti ++
        [.line (.label false_label)], sym)
  | fuel + 1, .whileStmt test_expr body_stmt, _, _, sym => do
    let (loop_label, sym) := gen_sym "while_loop" sym
    let (break_label, sym) := gen_sym "while_break" sym
    let (tc, sym) ← test_expr.gen_code fuel sym
    let (bi, sym) ← body_stmt.gen_code fuel (some break_label) (some loop_label) sym
    .ok ([.line (.label loop_label), .exprCode tc false,
      .line (.insn (.jz break_label))] ++ bi ++
      [.line (.insn (.jmp loop_label)), .line (.label break_label)], sym)
  | fuel + 1, .doWhile test_expr body_stmt, _, _, sym => do
    let (loop_label, sym) := gen_sym "dowhile_loop" sym
    let (cont_label, sym) := gen_sym "dowhile_cont" sym
    let (break_label, sym) := gen_sym "dowhile_break" sym
    let (bi, sym) ← body_stmt.gen_code fuel (some break_label) (some cont_label) sym
    let (tc, sym) ← test_expr.gen_code fuel sym
    .ok ([.line (.label loop_label)] ++ bi ++
      [.line (.label cont_label), .exprCode tc false,
       .line (.insn (.jz break_label)), .line (.insn (.jmp loop_label)),
       .line (.label break_label)], sym)
  | fuel + 1, .forStmt init_stmt test_expr incr_expr body_stmt, break_label, cont_label, sym => do
    let (ii, sym) ←
      match init_stmt with
      | some init_stmt => init_stmt.gen_code fuel break_label cont_label sym
      | none => .ok (([] : List Item), sym)
    let (loop_label, sym) := gen_sym "for_loop" sym
    let (for_cont_label, sym) := gen_sym "for_cont" sym
    let (for_break_label, sym) := gen_sym "for_break" sym
    let (tc, sym) ← test_expr.gen_code fuel sym
    let (bi, sym) ← body_stmt.gen_code fuel (some for_break_label) (some for_cont_label) sym
    let (ic, sym) ← incr_expr.gen_code fuel sym
    .ok (ii ++ [.line (.label loop_label), .exprCode tc false,
      .line (.insn (.jz for_break_label))] ++ bi ++
      [.line (.label for_cont_label), .exprCode ic false, .line (.insn .pop),
       .line (.insn (.jmp loop_label)), .line (.label for_break_label)], sym)
  | fuel + 1, .block stmts, break_label, cont_label, sym =>
    genStmts fuel stmts break_label cont_label sym
  | _ + 1, .varDecl _ _ _, _, _, _ => .error (.panicked "todo: stmt")

/-- The statement loop of `Stmt::Block` in `Stmt::gen_code`: emit each
child with the current break/continue labels propagated unchanged. -/
def genStmts : Nat → List Stmt → Option String → Option String → Nat →
    Except GenErr (List Item × Nat)
  | 0, _, _, _, _ => .error .outOfFuel
  | _ + 1, [], _, _, sym => .ok ([], sym)
  | fuel + 1, stmt :: rest, break_label, cont_label, sym => do
    let (c, sym) ← stmt.gen_code fuel break_label cont_label sym
    let (cs, sym) ← genStmts fuel rest break_label cont_label sym
    .ok (c ++ cs, sym)

end

/-- `Function::needs_final_return` (`src/ncc/src/codegen.rs` lines
131-148): true unless the body is a non-empty `Block` whose last
statement is `ReturnVoid` or `ReturnExpr`. -/
def Function.needs_final_return (f : Function) : Bool :=
  match f.body with
  | .block stmts =>
    match stmts.getLast? with
    | some .returnVoid => false
    | some (.returnExpr _) => false
    | _ => true
  | _ => true

/-- The signature comment text written by `Function::gen_code`
(`src/ncc/src/codegen.rs` lines 152-162). -/
def funSig (f : Function) : String :=
  "# " ++ f.ret_type.display ++ " " ++ f.name ++ "(" ++
    String.intercalate ", " (f.params.map (fun p => p.1.display ++ " " ++ p.2)) ++ ")"

/-- `Function::gen_code` (`src/ncc/src/codegen.rs` lines 150-183): emit
the signature comment, the function label, `num_locals` zeroed slots, the
body, and the implicit `push 0; ret;` when the body needs it. -/
def Function.gen_code (fuel : Nat) (f : Function) (sym : Nat) :
    Except GenErr (List Line × Nat) := do
  let sig := funSig f
  let (bi, sym) ← f.body.gen_code fuel none none sym
  .ok ([.comment "#", .comment sig, .comment "#", .label f.name] ++
    List.replicate f.num_locals (.insn (.push 0)) ++
    flattenItems bi ++
    (if f.needs_final_return then [.insn (.push 0), .insn .ret] else []) ++
    [.blank], sym)

/-- The global-variable loop of `Unit::gen_code` (`src/ncc/src/codegen.rs`
lines 49-89): alignment directive, label, initializer data per the table,
then a blank line, for each global.  The `escape_default` call of the
string-initializer arm is kept abstract by storing the raw string in the
directive text (no claim inspects it). -/
def genGlobals : List Global → Except GenErr (List Line)
  | [] => .ok []
  | global :: rest => do
    let init ←
      match global.var_type, global.init_expr with
      | _, none => pure [Line.directive s!".zero {global.var_type.sizeof};"]
      | .uint n, some (.int v) => pure [Line.directive s!".u{n} {v};"]
      | .int n, some (.int v) => pure [Line.directive s!".i{n} {v};"]
      | .pointer _, some (.int v) => pure [Line.directive s!".u64 {v};"]
      | .pointer _, some (.string s) =>
        pure [Line.directive (".stringz \"" ++ s ++ "\";")]
      | _, _ => .error (.panicked "todo: global initializer")
    let restLines ← genGlobals rest
    .ok ([Line.directive s!".align {global.var_type.align_bytes};",
      Line.label global.name] ++ init ++ [Line.blank] ++ restLines)

/-- The function loop of `Unit::gen_code` (`src/ncc/src/codegen.rs` lines
120-123): emit every function in declaration order, threading the
fresh-symbol counter. -/
def genFuns (fuel : Nat) : List Function → Nat → Except GenErr (List Line × Nat)
  | [], sym => .ok ([], sym)
  | f :: rest, sym => do
    let (c, sym) ← f.gen_code fuel sym
    let (cs, sym) ← genFuns fuel rest sym
    .ok (c ++ cs, sym)

/-- The header lines of the unit output (`src/ncc/src/codegen.rs` lines
33-47): file comment, `.data;`, the reserved null word, and the
`__EVENT_LOOP_ENABLED__` flag byte. -/
def unitHeader : List Line :=
  [.comment "#", .comment "# This file was automatically generated by the ncc compiler.",
   .comment "#", .blank,
   .directive ".data;", .blank,
   .comment "# Reserve the first heap word so we can use address 0 as null",
   .directive ".u64 0;", .blank,
   .label "__EVENT_LOOP_ENABLED__", .directive ".u8 0;", .blank]

/-- The entry trampoline emitted when the unit has exactly one function
named `main` (`src/ncc/src/codegen.rs` lines 103-111). -/
def trampolineLines : List Line :=
  [.comment "# call the main function and then exit",
   .insn (.call "main" 0),
   .insn (.pushSym "__EVENT_LOOP_ENABLED__"),
   .insn (.load_u 8),
   .insn (.jnz "__ret_to_event_loop__"),
   .insn .exit,
   .label "__ret_to_event_loop__",
   .insn .ret,
   .blank]

/-- `Unit::gen_code` (`src/ncc/src/codegen.rs` lines 28-126): the whole
output of one compilation unit.  The fresh-symbol counter starts at 0
(`SymGen::default`).  The Rust `if let [main_fn] = main_fn[..]` matches
exactly when the filtered list is a singleton. -/
def Unit.gen_code (fuel : Nat) (u : Unit) : Except GenErr (List Line) := do
  let globalLines ← genGlobals u.global_vars
  let main_fn := u.fun_decls.filter (fun f => f.name == "main")
  let entry :=
    match main_fn with
    | [_] => trampolineLines
    | _ =>
      -- If there is no main function, the unit should exit
      [Line.insn (.push 0), Line.insn .exit]
  let (funLines, _) ← genFuns fuel u.fun_decls 0
  .ok (unitHeader ++ globalLines ++
    [.comment (String.mk (List.replicate 78 '#')), .blank, .directive ".code;", .blank] ++
    entry ++ funLines)

/-!
## Simulated operand-stack depth

Per-instruction net effect on the VM operand-stack depth (spec §6):
`push`/`dup`/`getn`/`get_arg`/`get_local` push one word; `pop`, the
conditional jumps (which consume the tested word), `ret` (which consumes
the return word), `exit` (the exit code) and `set_arg`/`set_local` pop
one; the loads pop an address and push a value; `store_u` pops an address
and a value; the two-operand `op` family pops two and pushes one;
`call name argc` pops `argc` arguments and the callee leaves exactly one
return word (spec §4.5).  An `asm` splice is opaque text; it is never
counted here, because the statement-level accounting abstracts whole
expression emissions via `Item.exprCode`.
-/

/-- Net operand-stack effect of one instruction. -/
def Instr.delta : Instr → Int
  | .push _ => 1
  | .pushSym _ => 1
  | .pop => -1
  | .dup => 1
  | .swap => 0
  | .getn _ => 1
  | .load_u _ => 0
  | .store_u _ => -2
  | .sx_i32_i64 => 0
  | .trunc_u _ => 0
  | .not_u _ => 0
  | .op _ _ => -1
  | .jmp _ => 0
  | .jz _ => -1
  | .jnz _ => -1
  | .call _ argc => 1 - argc
  | .ret => -1
  | .exit => -1
  | .get_arg _ => 1
  | .set_arg _ => -1
  | .get_local _ => 1
  | .set_local _ => -1
  | .asm _ => 0

/-- Net operand-stack effect of one output line (labels, comments,
directives and blank lines do not touch the stack). -/
def Line.delta : Line → Int
  | .insn i => i.delta
  | _ => 0

/-- Net operand-stack effect of one statement-emitter output element.  An
expression emission counts as one pushed word — the claim's assumption
that every successfully emitted rvalue expression leaves exactly one word
on the stack — except for an `Asm` with `Void` output type, which leaves
none (spec §4.5). -/
def Item.delta : Item → Int
  | .line l => l.delta
  | .exprCode _ voidAsm => if voidAsm then 0 else 1

/-- Net operand-stack effect of a statement-emitter output sequence. -/
def itemsDelta (items : List Item) : Int :=
  (items.map Item.delta).sum

theorem itemsDelta_nil : itemsDelta [] = 0 := rfl

theorem itemsDelta_cons (i : Item) (rest : List Item) :
    itemsDelta (i :: rest) = i.delta + itemsDelta rest := by
  simp [itemsDelta]

theorem itemsDelta_append (a b : List Item) :
    itemsDelta (a ++ b) = itemsDelta a + itemsDelta b := by
  simp [itemsDelta]

/-- Inversion of a successful `Except` bind. -/
theorem bind_ok {ε α β : Type} {x : Except ε α} {f : α → Except ε β} {b : β}
    (h : x.bind f = .ok b) : ∃ a, x = .ok a ∧ f a = .ok b := by
  cases x with
  | error e => simp [Except.bind] at h
  | ok a => exact ⟨a, rfl, h⟩

theorem ok_bind {ε α β : Type} (a : α) (f : α → Except ε β) :
    (Except.ok (ε := ε) a).bind f = f a := rfl

theorem error_bind {ε α β : Type} (e : ε) (f : α → Except ε β) :
    (Except.error (α := α) e).bind f = (Except.error e : Except ε β) := rfl

theorem okBindM {ε α β : Type} (a : α) (f : α → Except ε β) :
    (Except.ok (ε := ε) a) >>= f = f a := rfl

theorem errorBindM {ε α β : Type} (e : ε) (f : α → Except ε β) :
    (Except.error (α := α) e : Except ε α) >>= f = (Except.error e : Except ε β) := rfl

/-- A successful `gen_assign` is stack-neutral in value-discarded mode and
leaves one word in value-needed mode, counting each wrapped expression
emission as one word. -/
theorem gen_assign_delta (fuel : Nat) (lhs rhs : Expr) (s : Nat) (nv : Bool)
    (items : List Item) (s' : Nat)
    (h : gen_assign fuel lhs rhs s nv = .ok (items, s')) :
    itemsDelta items = if nv then 1 else 0 := by
  match fuel, lhs with
  | 0, _ => simp [gen_assign] at h
  | f + 1, .unary op child =>
    cases op <;> simp only [gen_assign] at h <;> try exact Except.noConfusion h
    -- deref
    obtain ⟨pt, hpt, h⟩ := bind_ok h
    cases pt <;> try simp only [] at h
    all_goals try exact Except.noConfusion h
    cases nv
    · rw [if_neg Bool.false_ne_true] at h
      obtain ⟨⟨cc, s1⟩, hcc, h⟩ := bind_ok h
      obtain ⟨⟨rc, s2⟩, hrc, h⟩ := bind_ok h
      simp only [Except.ok.injEq, Prod.mk.injEq] at h
      obtain ⟨h1, -⟩ := h
      subst h1
      simp [itemsDelta, Item.delta, Line.delta, Instr.delta]
    · rw [if_pos rfl] at h
      obtain ⟨⟨rc, s1⟩, hrc, h⟩ := bind_ok h
      obtain ⟨⟨cc, s2⟩, hcc, h⟩ := bind_ok h
      simp only [Except.ok.injEq, Prod.mk.injEq] at h
      obtain ⟨h1, -⟩ := h
      subst h1
      simp [itemsDelta, Item.delta, Line.delta, Instr.delta]
  | f + 1, .ref decl =>
    cases decl <;> simp only [gen_assign] at h
    case global name t =>
      cases nv <;> [rw [if_neg Bool.false_ne_true] at h; rw [if_pos rfl] at h] <;> {
        obtain ⟨⟨rc, s1⟩, hrc, h⟩ := bind_ok h
        rw [pure_bind] at h
        cases t <;> try simp only [] at h
        all_goals try exact Except.noConfusion h
        all_goals {
          simp only [Except.ok.injEq, Prod.mk.injEq] at h
          obtain ⟨h1, -⟩ := h
          subst h1
          simp [itemsDelta_append, itemsDelta, Item.delta, Line.delta, Instr.delta]
        }
      }
    case arg idx t =>
      obtain ⟨⟨rc, s1⟩, hrc, h⟩ := bind_ok h
      simp only [Except.ok.injEq, Prod.mk.injEq] at h
      obtain ⟨h1, -⟩ := h
      subst h1
      cases nv <;>
        simp [itemsDelta_append, itemsDelta, Item.delta, Line.delta, Instr.delta]
    case loc idx t =>
      obtain ⟨⟨rc, s1⟩, hrc, h⟩ := bind_ok h
      simp only [Except.ok.injEq, Prod.mk.injEq] at h
      obtain ⟨h1, -⟩ := h
      subst h1
      cases nv <;>
        simp [itemsDelta_append, itemsDelta, Item.delta, Line.delta, Instr.delta]
    case fn => exact Except.noConfusion h
  | f + 1, .int v => simp [gen_assign] at h
  | f + 1, .string str => simp [gen_assign] at h
  | f + 1, .cast t c => simp [gen_assign] at h
  | f + 1, .sizeofExpr c => simp [gen_assign] at h
  | f + 1, .sizeofType t => simp [gen_assign] at h
  | f + 1, .binary op l r => simp [gen_assign] at h
  | f + 1, .ternary a b c => simp [gen_assign] at h
  | f + 1, .call c a => simp [gen_assign] at h
  | f + 1, .asm t a o => simp [gen_assign] at h

/-- Every successfully emitted statement is stack-neutral, and so is every
successfully emitted statement list; proved by induction on the fuel. -/
theorem stmt_gen_code_delta_aux : ∀ (fuel : Nat),
    (∀ (stmt : Stmt) (bl cl : Option String) (s : Nat) (items : List Item) (s' : Nat),
      Stmt.gen_code fuel stmt bl cl s = .ok (items, s') → itemsDelta items = 0) ∧
    (∀ (stmts : List Stmt) (bl cl : Option String) (s : Nat) (items : List Item) (s' : Nat),
      genStmts fuel stmts bl cl s = .ok (items, s') → itemsDelta items = 0) := by
  intro fuel
  induction fuel with
  | zero =>
    constructor
    · intro stmt bl cl s items s' h
      simp [Stmt.gen_code] at h
    · intro stmts bl cl s items s' h
      simp [genStmts] at h
  | succ f ih =>
    obtain ⟨ihS, ihL⟩ := ih
    constructor
    · intro stmt bl cl s items s' h
      cases stmt with
      | expr e =>
        simp only [Stmt.gen_code] at h
        match e with
        | .binary .assign lhs rhs =>
          simp only [] at h
          exact gen_assign_delta f lhs rhs s false items s' h
        | .asm text args .void =>
          simp only [] at h
          obtain ⟨⟨c, s1⟩, hc, h⟩ := bind_ok h
          simp only [Except.ok.injEq, Prod.mk.injEq] at h
          obtain ⟨h1, -⟩ := h
          subst h1
          simp [itemsDelta, Item.delta]
        | .int v | .string str | .ref d | .cast t c | .sizeofExpr c | .sizeofType t
        | .unary uop c | .ternary a b c | .call c a
        | .binary .comma lhs rhs | .binary .and lhs rhs | .binary .or lhs rhs
        | .binary .bitAnd lhs rhs | .binary .bitOr lhs rhs | .binary .bitXor lhs rhs
        | .binary .lshift lhs rhs | .binary .rshift lhs rhs
        | .binary .add lhs rhs | .binary .sub lhs rhs | .binary .mul lhs rhs
        | .binary .div lhs rhs | .binary .mod lhs rhs
        | .binary .eq lhs rhs | .binary .ne lhs rhs
        | .binary .lt lhs rhs | .binary .le lhs rhs
        | .binary .gt lhs rhs | .binary .ge lhs rhs
        | .asm text args (.uint n) | .asm text args (.int n)
        | .asm text args (.pointer t) | .asm text args (.array t n)
        | .asm text args (.fnTy t) =>
          simp only [] at h
          obtain ⟨⟨c, s1⟩, hc, h⟩ := bind_ok h
          simp only [Except.ok.injEq, Prod.mk.injEq] at h
          obtain ⟨h1, -⟩ := h
          subst h1
          simp [itemsDelta, itemsDelta_cons, Item.delta, Line.delta, Instr.delta]
      | breakStmt =>
        simp only [Stmt.gen_code] at h
        cases bl <;> simp only [] at h <;> try exact Except.noConfusion h
        simp only [Except.ok.injEq, Prod.mk.injEq] at h
        obtain ⟨h1, -⟩ := h
        subst h1
        simp [itemsDelta, Item.delta, Line.delta, Instr.delta]
      | continueStmt =>
        simp only [Stmt.gen_code] at h
        cases cl <;> simp only [] at h <;> try exact Except.noConfusion h
        simp only [Except.ok.injEq, Prod.mk.injEq] at h
        obtain ⟨h1, -⟩ := h
        subst h1
        simp [itemsDelta, Item.delta, Line.delta, Instr.delta]
      | returnVoid =>
        simp only [Stmt.gen_code, Except.ok.injEq, Prod.mk.injEq] at h
        obtain ⟨h1, -⟩ := h
        subst h1
        simp [itemsDelta, Item.delta, Line.delta, Instr.delta]
      | returnExpr e =>
        simp only [Stmt.gen_code] at h
        match e with
        | .asm text args .void =>
          simp only [] at h
          obtain ⟨⟨c, s1⟩, hc, h⟩ := bind_ok h
          simp only [Except.ok.injEq, Prod.mk.injEq] at h
          obtain ⟨h1, -⟩ := h
          subst h1
          simp [itemsDelta, Item.delta, Line.delta, Instr.delta]
        | .int v | .string str | .ref d | .cast t c | .sizeofExpr c | .sizeofType t
        | .unary uop c | .binary bop lhs rhs | .ternary a b c | .call c a
        | .asm text args (.uint n) | .asm text args (.int n)
        | .asm text args (.pointer t) | .asm text args (.array t n)
        | .asm text args (.fnTy t) =>
          simp only [] at h
          obtain ⟨⟨c, s1⟩, hc, h⟩ := bind_ok h
          simp only [Except.ok.injEq, Prod.mk.injEq] at h
          obtain ⟨h1, -⟩ := h
          subst h1
          simp [itemsDelta, Item.delta, Line.delta, Instr.delta]
      | ifStmt test_expr then_stmt else_stmt =>
        simp only [Stmt.gen_code] at h
        obtain ⟨⟨tc, s1⟩, htc, h⟩ := bind_ok h
        cases else_stmt with
        | some els =>
          simp only [] at h
          obtain ⟨⟨ti, s2⟩, hti, h⟩ := bind_ok h
          obtain ⟨⟨ei, s3⟩, hei, h⟩ := bind_ok h
          simp only [Except.ok.injEq, Prod.mk.injEq] at h
          obtain ⟨h1, -⟩ := h
          subst h1
          have d1 := ihS then_stmt bl cl _ _ _ hti
          have d2 := ihS els bl cl _ _ _ hei
          simp only [itemsDelta_append, d1, d2]
          simp [itemsDelta, Item.delta, Line.delta, Instr.delta]
        | none =>
          simp only [] at h
          obtain ⟨⟨ti, s2⟩, hti, h⟩ := bind_ok h
          simp only [Except.ok.injEq, Prod.mk.injEq] at h
          obtain ⟨h1, -⟩ := h
          subst h1
          have d1 := ihS then_stmt bl cl _ _ _ hti
          simp only [itemsDelta_append, d1]
          simp [itemsDelta, Item.delta, Line.delta, Instr.delta]
      | whileStmt test_expr body_stmt =>
        simp only [Stmt.gen_code] at h
        obtain ⟨⟨tc, s1⟩, htc, h⟩ := bind_ok h
        obtain ⟨⟨bi, s2⟩, hbi, h⟩ := bind_ok h
        simp only [Except.ok.injEq, Prod.mk.injEq] at h
        obtain ⟨h1, -⟩ := h
        subst h1
        have d1 := ihS body_stmt _ _ _ _ _ hbi
        simp only [itemsDelta_append, d1]
        simp [itemsDelta, Item.delta, Line.delta, Instr.delta]
      | doWhile test_expr body_stmt =>
        simp only [Stmt.gen_code] at h
        obtain ⟨⟨bi, s1⟩, hbi, h⟩ := bind_ok h
        obtain ⟨⟨tc, s2⟩, htc, h⟩ := bind_ok h
        simp only [Except.ok.injEq, Prod.mk.injEq] at h
        obtain ⟨h1, -⟩ := h
        subst h1
        have d1 := ihS body_stmt _ _ _ _ _ hbi
        simp only [itemsDelta_append, d1]
        simp [itemsDelta, Item.delta, Line.delta, Instr.delta]
      | forStmt init_stmt test_expr incr_expr body_stmt =>
        simp only [Stmt.gen_code] at h
        cases init_stmt with
        | some init =>
          simp only [] at h
          obtain ⟨⟨ii, s1⟩, hii, h⟩ := bind_ok h
          obtain ⟨⟨tc, s2⟩, htc, h⟩ := bind_ok h
          obtain ⟨⟨bi, s3⟩, hbi, h⟩ := bind_ok h
          obtain ⟨⟨ic, s4⟩, hic, h⟩ := bind_ok h
          simp only [Except.ok.injEq, Prod.mk.injEq] at h
          obtain ⟨h1, -⟩ := h
          subst h1
          have d0 := ihS init bl cl _ _ _ hii
          have d1 := ihS body_stmt _ _ _ _ _ hbi
          simp only [itemsDelta_append, d0, d1]
          simp [itemsDelta, Item.delta, Line.delta, Instr.delta]
        | none =>
          simp only [] at h
          obtain ⟨⟨ii, s1⟩, hii, h⟩ := bind_ok h
          obtain ⟨⟨tc, s2⟩, htc, h⟩ := bind_ok h
          obtain ⟨⟨bi, s3⟩, hbi, h⟩ := bind_ok h
          obtain ⟨⟨ic, s4⟩, hic, h⟩ := bind_ok h
          simp only [Except.ok.injEq, Prod.mk.injEq] at h
          obtain ⟨h1, -⟩ := h
          subst h1
          simp only [Except.ok.injEq, Prod.mk.injEq] at hii
          obtain ⟨h2, -⟩ := hii
          have d0 : itemsDelta ii = 0 := by rw [← h2]; rfl
          have d1 := ihS body_stmt _ _ _ _ _ hbi
          simp only [itemsDelta_append, d0, d1]
          simp [itemsDelta, Item.delta, Line.delta, Instr.delta]
      | block stmts =>
        simp only [Stmt.gen_code] at h
        exact ihL stmts bl cl _ _ _ h
      | varDecl vt vn ie =>
        simp [Stmt.gen_code] at h
    · intro stmts bl cl s items s' h
      cases stmts with
      | nil =>
        simp only [genStmts, Except.ok.injEq, Prod.mk.injEq] at h
        obtain ⟨h1, -⟩ := h
        subst h1
        rfl
      | cons stmt rest =>
        simp only [genStmts] at h
        obtain ⟨⟨c, s1⟩, hc, h⟩ := bind_ok h
        obtain ⟨⟨cs, s2⟩, hcs, h⟩ := bind_ok h
        simp only [Except.ok.injEq, Prod.mk.injEq] at h
        obtain ⟨h1, -⟩ := h
        subst h1
        have d1 := ihS stmt bl cl _ _ _ hc
        have d2 := ihL rest bl cl _ _ _ hcs
        simp only [itemsDelta_append, d1, d2]
        simp

/-- C1: For every statement (`Expr`, `ReturnVoid`, `ReturnExpr`, `Break`,
`Continue`, `If`, `While`, `DoWhile`, `For`, `Block`) for which
`Stmt::gen_code` succeeds, the net change to the simulated operand-stack
depth of the emitted instruction sequence is exactly 0, where — per the
claim's assumption — every successfully emitted rvalue expression is
counted as leaving exactly one word on the stack (and an `Asm` expression
with `Void` output type, which the statement emitter special-cases, as
leaving none), as recorded by `Item.delta`. -/
theorem claim_C1_stmt_stack_neutral (fuel : Nat) (stmt : Stmt)
    (break_label cont_label : Option String) (s : Nat) (items : List Item) (s' : Nat)
    (h : Stmt.gen_code fuel stmt break_label cont_label s = .ok (items, s')) :
    itemsDelta items = 0 :=
  (stmt_gen_code_delta_aux fuel).1 stmt break_label cont_label s items s' h

/-- Witness for C1: the concrete statement `while (1) { break; }`. -/
theorem claim_C1_witness :
    Stmt.gen_code 16 (.whileStmt (.int 1) (.block [.breakStmt])) none none 0 =
      .ok ([.line (.label "_while_loop_0"), .exprCode [.insn (.push 1)] false,
            .line (.insn (.jz "_while_break_1")), .line (.insn (.jmp "_while_break_1")),
            .line (.insn (.jmp "_while_loop_0")), .line (.label "_while_break_1")], 2) ∧
    itemsDelta [.line (.label "_while_loop_0"), .exprCode [.insn (.push 1)] false,
            .line (.insn (.jz "_while_break_1")), .line (.insn (.jmp "_while_break_1")),
            .line (.insn (.jmp "_while_loop_0")), .line (.label "_while_break_1")] = 0 :=
  ⟨rfl, claim_C1_stmt_stack_neutral 16 (.whileStmt (.int 1) (.block [.breakStmt]))
    none none 0
    [.line (.label "_while_loop_0"), .exprCode [.insn (.push 1)] false,
     .line (.insn (.jz "_while_break_1")), .line (.insn (.jmp "_while_break_1")),
     .line (.insn (.jmp "_while_loop_0")), .line (.label "_while_break_1")] 2 rfl⟩

/-- C7: For every `Break` (resp. `Continue`) statement, when an enclosing
break (resp. continue) target label is in effect, exactly `jmp <label>;`
to that label is emitted; when none is in effect, code generation fails
with the break-outside-of-loop (resp. continue-outside-of-loop) error
returned to the caller.  The enclosing labels are the parameters threaded
to every nested statement by the emitter, so this holds for every
`Break`/`Continue` at any nesting depth. -/
theorem claim_C7_break_continue (fuel : Nat) (break_label cont_label : Option String)
    (s : Nat) :
    Stmt.gen_code (fuel + 1) .breakStmt break_label cont_label s =
      (match break_label with
       | some label => .ok ([.line (.insn (.jmp label))], s)
       | none => .error (.parseError "break outside of loop context")) ∧
    Stmt.gen_code (fuel + 1) .continueStmt break_label cont_label s =
      (match cont_label with
       | some label => .ok ([.line (.insn (.jmp label))], s)
       | none => .error (.parseError "continue outside of loop context")) := by
  refine ⟨?_, ?_⟩
  · cases break_label <;> rfl
  · cases cont_label <;> rfl

/-- C9: Code generation is deterministic — two invocations of
`Unit::gen_code` on the same `Unit` produce identical results, both as
structured output and as rendered output text.  In this embedding the
emitter is a pure function of the unit (the fresh-symbol counter always
starts at 0 and emission threads it deterministically), so the two runs
are definitionally equal. -/
theorem claim_C9_deterministic (fuel : Nat) (u : Unit) :
    Unit.gen_code fuel u = Unit.gen_code fuel u ∧
    (Unit.gen_code fuel u).map renderLines = (Unit.gen_code fuel u).map renderLines :=
  ⟨rfl, rfl⟩

/-- C5: For every function whose body is a `Block`, the emitted body is
followed by `push 0; ret;` exactly when `needs_final_return` holds, and
`needs_final_return` is false if and only if the final top-level statement
of the outermost `Block` is `ReturnVoid` or `ReturnExpr` — a purely
syntactic test on the last element of the block, which never examines
nested control flow. -/
theorem claim_C5_final_return (fuel s sb s' : Nat) (f : Function)
    (stmts : List Stmt) (items : List Item) (code : List Line)
    (hb : f.body = .block stmts)
    (hbody : Stmt.gen_code fuel f.body none none s = .ok (items, sb))
    (h : Function.gen_code fuel f s = .ok (code, s')) :
    (code = [.comment "#", .comment (funSig f), .comment "#", .label f.name] ++
      List.replicate f.num_locals (.insn (.push 0)) ++ flattenItems items ++
      (if f.needs_final_return then [Line.insn (.push 0), Line.insn .ret] else []) ++
      [.blank]) ∧
    (f.needs_final_return = false ↔
      stmts.getLast? = some .returnVoid ∨ ∃ e, stmts.getLast? = some (.returnExpr e)) := by
  constructor
  · simp only [Function.gen_code] at h
    obtain ⟨⟨bi, sym2⟩, hbi, h⟩ := bind_ok h
    rw [hbody] at hbi
    simp only [Except.ok.injEq, Prod.mk.injEq] at hbi h
    obtain ⟨h1, -⟩ := hbi
    obtain ⟨h2, -⟩ := h
    rw [← h2, ← h1]
  · simp only [Function.needs_final_return, hb]
    rcases hls : stmts.getLast? with - | st
    · simp
    · cases st <;> simp

/-- Witness for C5: the concrete function `void f() {}` (empty block, so
the implicit `push 0; ret;` epilogue is appended). -/
theorem claim_C5_witness :
    (Function.mk "f" .void [] (.block []) 0).body = .block [] ∧
    Stmt.gen_code 8 (Function.mk "f" .void [] (.block []) 0).body none none 0 =
      .ok ([], 0) ∧
    Function.gen_code 8 (Function.mk "f" .void [] (.block []) 0) 0 =
      .ok ([.comment "#", .comment "# void f()", .comment "#", .label "f",
            .insn (.push 0), .insn .ret, .blank], 0) ∧
    (([.comment "#", .comment "# void f()", .comment "#", .label "f",
       .insn (.push 0), .insn .ret, .blank] : List Line) =
      [.comment "#", .comment (funSig (Function.mk "f" .void [] (.block []) 0)),
       .comment "#", .label "f"] ++
      List.replicate 0 (Line.insn (.push 0)) ++ flattenItems [] ++
      (if (Function.mk "f" .void [] (.block []) 0).needs_final_return
       then [Line.insn (.push 0), Line.insn .ret] else []) ++ [.blank]) ∧
    ((Function.mk "f" .void [] (.block []) 0).needs_final_return = false ↔
      ([] : List Stmt).getLast? = some .returnVoid ∨
      ∃ e, ([] : List Stmt).getLast? = some (.returnExpr e)) :=
  ⟨rfl, rfl, rfl,
    (claim_C5_final_return 8 0 0 0 (Function.mk "f" .void [] (.block []) 0) [] []
      [.comment "#", .comment "# void f()", .comment "#", .label "f",
       .insn (.push 0), .insn .ret, .blank] rfl rfl rfl).1,
    (claim_C5_final_return 8 0 0 0 (Function.mk "f" .void [] (.block []) 0) [] []
      [.comment "#", .comment "# void f()", .comment "#", .label "f",
       .insn (.push 0), .insn .ret, .blank] rfl rfl rfl).2⟩

/-- Structure of the unit output: header, global data, the section
separator and `.code;`, the entry code selected by the number of
functions named `main`, then the function bodies. -/
theorem unit_gen_code_structure (fuel : Nat) (u : Unit) (L gl fl : List Line)
    (sf : Nat)
    (hg : genGlobals u.global_vars = .ok gl)
    (hf : genFuns fuel u.fun_decls 0 = .ok (fl, sf))
    (h : Unit.gen_code fuel u = .ok L) :
    L = unitHeader ++ gl ++
      [.comment (String.mk (List.replicate 78 '#')), .blank, .directive ".code;", .blank] ++
      (match u.fun_decls.filter (fun f => f.name == "main") with
       | [_] => trampolineLines
       | _ => [Line.insn (.push 0), Line.insn .exit]) ++ fl := by
  simp only [Unit.gen_code] at h
  obtain ⟨gl', hg', h⟩ := bind_ok h
  obtain ⟨⟨fl', sf'⟩, hf', h⟩ := bind_ok h
  rw [hg] at hg'
  rw [hf] at hf'
  simp only [Except.ok.injEq, Prod.mk.injEq] at hg' hf' h
  obtain ⟨h1, -⟩ := hf'
  subst hg'
  subst h1
  rw [← h]

/-- C6 (amended): In the unit output, immediately after the `.code;`
directive (and its blank line): when the unit has exactly one function
named `main`, the trampoline `call main, 0; push __EVENT_LOOP_ENABLED__;
load_u8; jnz __ret_to_event_loop__; exit; __ret_to_event_loop__: ret;`
(`trampolineLines`) is emitted; otherwise — no function named `main`, or
several — `push 0; exit;` is emitted instead. -/
theorem claim_C6_entry_selection (fuel : Nat) (u : Unit) (L gl fl : List Line)
    (sf : Nat)
    (hg : genGlobals u.global_vars = .ok gl)
    (hf : genFuns fuel u.fun_decls 0 = .ok (fl, sf))
    (h : Unit.gen_code fuel u = .ok L) :
    L = unitHeader ++ gl ++
      [.comment (String.mk (List.replicate 78 '#')), .blank, .directive ".code;", .blank] ++
      (match u.fun_decls.filter (fun f => f.name == "main") with
       | [_] => trampolineLines
       | _ => [Line.insn (.push 0), Line.insn .exit]) ++ fl :=
  unit_gen_code_structure fuel u L gl fl sf hg hf h

/-- Witness for C6 at a concrete unit with exactly one `main`: the
trampoline is emitted immediately after `.code;`. -/
theorem claim_C6_witness :
    ([.comment "#",
      .comment "# This file was automatically generated by the ncc compiler.",
      .comment "#", .blank,
      .directive ".data;", .blank,
      .comment "# Reserve the first heap word so we can use address 0 as null",
      .directive ".u64 0;", .blank,
      .label "__EVENT_LOOP_ENABLED__", .directive ".u8 0;", .blank,
      .comment (String.mk (List.replicate 78 '#')), .blank,
      .directive ".code;", .blank,
      .comment "# call the main function and then exit",
      .insn (.call "main" 0),
      .insn (.pushSym "__EVENT_LOOP_ENABLED__"),
      .insn (.load_u 8),
      .insn (.jnz "__ret_to_event_loop__"),
      .insn .exit,
      .label "__ret_to_event_loop__",
      .insn .ret,
      .blank,
      .comment "#", .comment "# void main()", .comment "#", .label "main",
      .insn (.push 0), .insn .ret, .blank] : List Line) =
      unitHeader ++ [] ++
        [.comment (String.mk (List.replicate 78 '#')), .blank, .directive ".code;", .blank] ++
        trampolineLines ++
        [.comment "#", .comment "# void main()", .comment "#", .label "main",
         .insn (.push 0), .insn .ret, .blank] :=
  claim_C6_entry_selection 8
    (Unit.mk [] [Function.mk "main" .void [] (.block []) 0])
    [.comment "#",
     .comment "# This file was automatically generated by the ncc compiler.",
     .comment "#", .blank,
     .directive ".data;", .blank,
     .comment "# Reserve the first heap word so we can use address 0 as null",
     .directive ".u64 0;", .blank,
     .label "__EVENT_LOOP_ENABLED__", .directive ".u8 0;", .blank,
     .comment (String.mk (List.replicate 78 '#')), .blank,
     .directive ".code;", .blank,
     .comment "# call the main function and then exit",
     .insn (.call "main" 0),
     .insn (.pushSym "__EVENT_LOOP_ENABLED__"),
     .insn (.load_u 8),
     .insn (.jnz "__ret_to_event_loop__"),
     .insn .exit,
     .label "__ret_to_event_loop__",
     .insn .ret,
     .blank,
     .comment "#", .comment "# void main()", .comment "#", .label "main",
     .insn (.push 0), .insn .ret, .blank]
    []
    [.comment "#", .comment "# void main()", .comment "#", .label "main",
     .insn (.push 0), .insn .ret, .blank]
    0 rfl rfl rfl

/-- Counterexample for C6: a unit with two functions named `main`.
Functions named `main` exist, yet the output's entry code is the no-main
sequence `push 0; exit;` and no `call main, 0` instruction appears
anywhere in the output, refuting "if a function named `main` exists, the
trampoline `call main, 0; …` is emitted". -/
theorem claim_C6_counterexample :
    (Unit.mk [] [Function.mk "main" .void [] (.block []) 0,
                 Function.mk "main" .void [] (.block []) 0]).fun_decls.map
        Function.name = ["main", "main"] ∧
    Unit.gen_code 8 (Unit.mk [] [Function.mk "main" .void [] (.block []) 0,
                                 Function.mk "main" .void [] (.block []) 0]) =
      .ok [.comment "#",
           .comment "# This file was automatically generated by the ncc compiler.",
           .comment "#", .blank,
           .directive ".data;", .blank,
           .comment "# Reserve the first heap word so we can use address 0 as null",
           .directive ".u64 0;", .blank,
           .label "__EVENT_LOOP_ENABLED__", .directive ".u8 0;", .blank,
           .comment (String.mk (List.replicate 78 '#')), .blank,
           .directive ".code;", .blank,
           .insn (.push 0), .insn .exit,
           .comment "#", .comment "# void main()", .comment "#", .label "main",
           .insn (.push 0), .insn .ret, .blank,
           .comment "#", .comment "# void main()", .comment "#", .label "main",
           .insn (.push 0), .insn .ret, .blank] ∧
    Line.insn (.call "main" 0) ∉
      ([.comment "#",
        .comment "# This file was automatically generated by the ncc compiler.",
        .comment "#", .blank,
        .directive ".data;", .blank,
        .comment "# Reserve the first heap word so we can use address 0 as null",
        .directive ".u64 0;", .blank,
        .label "__EVENT_LOOP_ENABLED__", .directive ".u8 0;", .blank,
        .comment (String.mk (List.replicate 78 '#')), .blank,
        .directive ".code;", .blank,
        .insn (.push 0), .insn .exit,
        .comment "#", .comment "# void main()", .comment "#", .label "main",
        .insn (.push 0), .insn .ret, .blank,
        .comment "#", .comment "# void main()", .comment "#", .label "main",
        .insn (.push 0), .insn .ret, .blank] : List Line) :=
  ⟨rfl, rfl, by decide⟩

/-- The global-data emitter writes only directives, labels, comments and
blank lines — never an instruction. -/
theorem genGlobals_no_insn : ∀ (gs : List Global) (ls : List Line),
    genGlobals gs = .ok ls → ls.all (fun l => !l.isInsn) = true := by
  intro gs
  induction gs with
  | nil =>
    intro ls h
    simp only [genGlobals, Except.ok.injEq] at h
    rw [← h]
    rfl
  | cons g rest ih =>
    intro ls h
    simp only [genGlobals] at h
    split at h <;>
      first
      | {
          obtain ⟨y, hy, h⟩ := bind_ok h
          obtain ⟨restLines, hrest, h⟩ := bind_ok h
          have hyy := Except.ok.inj hy
          subst hyy
          simp only [Except.ok.injEq] at h
          rw [← h]
          have hrestAll := ih restLines hrest
          simp only [List.all_append, hrestAll]
          simp [Line.isInsn]
        }
      | {
          obtain ⟨a, ha, -⟩ := bind_ok h
          exact Except.noConfusion ha
        }

/-- C10: When two or more functions of the unit are named `main` (so the
`main` filter does not produce a singleton), the entry code emitted right
after `.code;` is the no-main sequence `push 0; exit;`, and every line up
to and including it other than `push 0; exit;` itself is a
comment/label/directive/blank — in particular the output contains no
`call main, 0` trampoline before the function bodies, even though
functions named `main` exist. -/
theorem claim_C10_duplicate_mains (fuel : Nat) (u : Unit) (L gl fl : List Line)
    (sf : Nat)
    (hmains : 2 ≤ (u.fun_decls.filter (fun f => f.name == "main")).length)
    (hg : genGlobals u.global_vars = .ok gl)
    (hf : genFuns fuel u.fun_decls 0 = .ok (fl, sf))
    (h : Unit.gen_code fuel u = .ok L) :
    L = unitHeader ++ gl ++
      [.comment (String.mk (List.replicate 78 '#')), .blank, .directive ".code;", .blank] ++
      [Line.insn (.push 0), Line.insn .exit] ++ fl ∧
    (unitHeader ++ gl ++
      [Line.comment (String.mk (List.replicate 78 '#')), Line.blank,
       Line.directive ".code;", Line.blank]).all (fun l => !l.isInsn) = true := by
  have hs := unit_gen_code_structure fuel u L gl fl sf hg hf h
  constructor
  · rw [hs]
    rcases hflt : u.fun_decls.filter (fun f => f.name == "main") with - | ⟨a, - | ⟨b, r⟩⟩
    · rw [hflt] at hmains
      simp at hmains
    · rw [hflt] at hmains
      simp at hmains
    · rw [hflt]
  · have hglAll := genGlobals_no_insn u.global_vars gl hg
    have h1 : unitHeader.all (fun l => !l.isInsn) = true := by decide
    have h2 : ([Line.comment (String.mk (List.replicate 78 '#')), Line.blank,
        Line.directive ".code;", Line.blank]).all (fun l => !l.isInsn) = true := by decide
    rw [List.all_append, List.all_append, hglAll, h1, h2]
    rfl

/-- Witness for C10 at a concrete unit with two functions named `main`. -/
theorem claim_C10_witness :
    2 ≤ ((Unit.mk [] [Function.mk "main" .void [] (.block []) 0,
                      Function.mk "main" .void [] (.block []) 0]).fun_decls.filter
          (fun f => f.name == "main")).length ∧
    (([.comment "#",
       .comment "# This file was automatically generated by the ncc compiler.",
       .comment "#", .blank,
       .directive ".data;", .blank,
       .comment "# Reserve the first heap word so we can use address 0 as null",
       .directive ".u64 0;", .blank,
       .label "__EVENT_LOOP_ENABLED__", .directive ".u8 0;", .blank,
       .comment (String.mk (List.replicate 78 '#')), .blank,
       .directive ".code;", .blank,
       .insn (.push 0), .insn .exit,
       .comment "#", .comment "# void main()", .comment "#", .label "main",
       .insn (.push 0), .insn .ret, .blank,
       .comment "#", .comment "# void main()", .comment "#", .label "main",
       .insn (.push 0), .insn .ret, .blank] : List Line) =
      unitHeader ++ [] ++
        [.comment (String.mk (List.replicate 78 '#')), .blank, .directive ".code;", .blank] ++
        [Line.insn (.push 0), Line.insn .exit] ++
        [.comment "#", .comment "# void main()", .comment "#", .label "main",
         .insn (.push 0), .insn .ret, .blank,
         .comment "#", .comment "# void main()", .comment "#", .label "main",
         .insn (.push 0), .insn .ret, .blank] ∧
     (unitHeader ++ [] ++
       [Line.comment (String.mk (List.replicate 78 '#')), Line.blank,
        Line.directive ".code;", Line.blank]).all (fun l => !l.isInsn) = true) :=
  ⟨by decide,
   claim_C10_duplicate_mains 8
     (Unit.mk [] [Function.mk "main" .void [] (.block []) 0,
                  Function.mk "main" .void [] (.block []) 0])
     [.comment "#",
      .comment "# This file was automatically generated by the ncc compiler.",
      .comment "#", .blank,
      .directive ".data;", .blank,
      .comment "# Reserve the first heap word so we can use address 0 as null",
      .directive ".u64 0;", .blank,
      .label "__EVENT_LOOP_ENABLED__", .directive ".u8 0;", .blank,
      .comment (String.mk (List.replicate 78 '#')), .blank,
      .directive ".code;", .blank,
      .insn (.push 0), .insn .exit,
      .comment "#", .comment "# void main()", .comment "#", .label "main",
      .insn (.push 0), .insn .ret, .blank,
      .comment "#", .comment "# void main()", .comment "#", .label "main",
      .insn (.push 0), .insn .ret, .blank]
     []
     [.comment "#", .comment "# void main()", .comment "#", .label "main",
      .insn (.push 0), .insn .ret, .blank,
      .comment "#", .comment "# void main()", .comment "#", .label "main",
      .insn (.push 0), .insn .ret, .blank]
     0 (by decide) rfl rfl rfl⟩

/-- Counterexample for C2: the cast `UInt(8) ← UInt(16)` is a strictly
narrowing integer cast, yet the emitted code is exactly the child's code
with no `trunc_u8` appended (the `(UInt(m), UInt(n))` arm of the match is
unconditionally a no-op); and the widening cast `Int(64) ← Int(32)`,
which the claim says emits no instruction, is instead rejected (Rust
`panic!`). -/
theorem claim_C2_counterexample :
    (Expr.ref (.arg 0 (.uint 16))).eval_type = .ok (.uint 16) ∧
    Expr.gen_code 1 (.ref (.arg 0 (.uint 16))) 0 = .ok ([.insn (.get_arg 0)], 0) ∧
    Expr.gen_code 2 (.cast (.uint 8) (.ref (.arg 0 (.uint 16)))) 0 =
      .ok ([.insn (.get_arg 0)], 0) ∧
    ([Line.insn (.get_arg 0)] ≠ [Line.insn (.get_arg 0), Line.insn (.trunc_u 8)]) ∧
    Expr.gen_code 2 (.cast (.int 64) (.ref (.arg 0 (.int 32)))) 0 =
      .error (.panicked "cannot cast") :=
  ⟨rfl, rfl, rfl, by decide, rfl⟩

/-- C2 (amended): For a `Cast{new_type, child}` reaching the expression
emitter, given the child's type and emitted code: a cross-signedness
integer cast appends `trunc_u{m}` exactly when strictly narrowing and
appends nothing otherwise; a `UInt ← UInt` cast appends nothing
regardless of the widths (including strict narrowing); an `Int ← Int`
cast is rejected; pointer ← pointer, pointer ← array,
`UInt(64)` ← pointer and pointer ← `UInt(64)` casts append nothing. -/
theorem claim_C2_cast_emission (fuel s s' : Nat) (child : Expr) (c : List Line)
    (ct : Ty)
    (ht : child.eval_type = .ok ct)
    (hc : Expr.gen_code fuel child s = .ok (c, s')) :
    (∀ m n, ct = .uint n →
      Expr.gen_code (fuel + 1) (.cast (.uint m) child) s = .ok (c, s')) ∧
    (∀ m n, ct = .int n → m ≥ n →
      Expr.gen_code (fuel + 1) (.cast (.uint m) child) s = .ok (c, s')) ∧
    (∀ m n, ct = .int n → m < n →
      Expr.gen_code (fuel + 1) (.cast (.uint m) child) s =
        .ok (c ++ [.insn (.trunc_u m)], s')) ∧
    (∀ m n, ct = .uint n → m ≥ n →
      Expr.gen_code (fuel + 1) (.cast (.int m) child) s = .ok (c, s')) ∧
    (∀ m n, ct = .uint n → m < n →
      Expr.gen_code (fuel + 1) (.cast (.int m) child) s =
        .ok (c ++ [.insn (.trunc_u m)], s')) ∧
    (∀ m n, ct = .int n →
      Expr.gen_code (fuel + 1) (.cast (.int m) child) s =
        .error (.panicked "cannot cast")) ∧
    (∀ t u, ct = .pointer u →
      Expr.gen_code (fuel + 1) (.cast (.pointer t) child) s = .ok (c, s')) ∧
    (∀ t e k, ct = .array e k →
      Expr.gen_code (fuel + 1) (.cast (.pointer t) child) s = .ok (c, s')) ∧
    (∀ u, ct = .pointer u →
      Expr.gen_code (fuel + 1) (.cast (.uint 64) child) s = .ok (c, s')) ∧
    (∀ t, ct = .uint 64 →
      Expr.gen_code (fuel + 1) (.cast (.pointer t) child) s = .ok (c, s')) := by
  refine ⟨?_, ?_, ?_, ?_, ?_, ?_, ?_, ?_, ?_, ?_⟩
  · intro m n hct
    subst hct
    simp [Expr.gen_code, ht, hc, ok_bind, okBindM]
  · intro m n hct hge
    subst hct
    simp [Expr.gen_code, ht, hc, ok_bind, okBindM, hge]
  · intro m n hct hlt
    subst hct
    have hnot : ¬ (m ≥ n) := by omega
    simp [Expr.gen_code, ht, hc, ok_bind, okBindM, hnot]
  · intro m n hct hge
    subst hct
    simp [Expr.gen_code, ht, hc, ok_bind, okBindM, hge]
  · intro m n hct hlt
    subst hct
    have hnot : ¬ (m ≥ n) := by omega
    simp [Expr.gen_code, ht, hc, ok_bind, okBindM, hnot]
  · intro m n hct
    subst hct
    simp [Expr.gen_code, ht, hc, ok_bind, okBindM]
  · intro t u hct
    subst hct
    simp [Expr.gen_code, ht, hc, ok_bind, okBindM]
  · intro t e k hct
    subst hct
    simp [Expr.gen_code, ht, hc, ok_bind, okBindM]
  · intro u hct
    subst hct
    simp [Expr.gen_code, ht, hc, ok_bind, okBindM]
  · intro t hct
    subst hct
    simp [Expr.gen_code, ht, hc, ok_bind, okBindM]

/-- Witness for C2 at concrete casts: `UInt(8) ← UInt(16)` (narrowing
unsigned-to-unsigned, no-op) and `UInt(8) ← Int(16)` (narrowing
signed-to-unsigned, truncated). -/
theorem claim_C2_witness :
    (Expr.ref (.arg 0 (.uint 16))).eval_type = .ok (.uint 16) ∧
    Expr.gen_code 1 (.ref (.arg 0 (.uint 16))) 0 = .ok ([.insn (.get_arg 0)], 0) ∧
    Expr.gen_code 2 (.cast (.uint 8) (.ref (.arg 0 (.uint 16)))) 0 =
      .ok ([.insn (.get_arg 0)], 0) ∧
    (Expr.ref (.arg 0 (.int 16))).eval_type = .ok (.int 16) ∧
    Expr.gen_code 1 (.ref (.arg 0 (.int 16))) 0 = .ok ([.insn (.get_arg 0)], 0) ∧
    Expr.gen_code 2 (.cast (.uint 8) (.ref (.arg 0 (.int 16)))) 0 =
      .ok ([.insn (.get_arg 0), .insn (.trunc_u 8)], 0) :=
  ⟨rfl, rfl,
   (claim_C2_cast_emission 1 0 0 (.ref (.arg 0 (.uint 16))) [.insn (.get_arg 0)]
     (.uint 16) rfl rfl).1 8 16 rfl,
   rfl, rfl,
   (claim_C2_cast_emission 1 0 0 (.ref (.arg 0 (.int 16))) [.insn (.get_arg 0)]
     (.int 16) rfl rfl).2.2.1 8 16 rfl (by decide)⟩

/-- A list of the shape `lc ++ (rc ++ [a, t])` ends with `t`. -/
theorem ends_pair {α : Type} {c lc rc : List α} {a t : α}
    (h : lc ++ (rc ++ [a, t]) = c) : ∃ pre, c = pre ++ [t] :=
  ⟨lc ++ (rc ++ [a]), by rw [← h]; simp⟩

/-- `emit_int_op` on a narrow unsigned output type: the 32-bit unsigned
instruction followed by the narrowing truncation. -/
theorem emit_int_op_uint_narrow (w : Nat) (so uo : String) (hw : w = 8 ∨ w = 16) :
    emit_int_op (.uint w) so uo =
      .ok [Line.insn (.op uo 32), Line.insn (.trunc_u w)] := by
  rcases hw with rfl | rfl <;> rfl

/-- `emit_int_op` on a narrow signed output type: the 32-bit signed
instruction followed by the narrowing truncation. -/
theorem emit_int_op_int_narrow (w : Nat) (so uo : String) (hw : w = 8 ∨ w = 16) :
    emit_int_op (.int w) so uo =
      .ok [Line.insn (.op so 32), Line.insn (.trunc_u w)] := by
  rcases hw with rfl | rfl <;> rfl

/-- Counterexample for C3: `Mul` on two `u8` operands, with output type
`u8` (width 8 < 32), emits a bare `mul_u64` and no `trunc_u8` — `Mul`
bypasses `emit_int_op` and its narrowing truncation entirely. -/
theorem claim_C3_counterexample :
    (Expr.binary .mul (.ref (.arg 0 (.uint 8))) (.ref (.arg 1 (.uint 8)))).eval_type =
      .ok (.uint 8) ∧
    (Ty.uint 8).sizeof * 8 < 32 ∧
    Expr.gen_code 3 (.binary .mul (.ref (.arg 0 (.uint 8))) (.ref (.arg 1 (.uint 8)))) 0 =
      .ok ([.insn (.get_arg 0), .insn (.get_arg 1), .insn (.op "mul_u" 64)], 0) ∧
    gen_bin_op 2 .mul (.ref (.arg 0 (.uint 8))) (.ref (.arg 1 (.uint 8))) (.uint 8) 0 =
      .ok ([.insn (.get_arg 0), .insn (.get_arg 1), .insn (.op "mul_u" 64)], 0) ∧
    ([Line.insn (.get_arg 0), .insn (.get_arg 1), .insn (.op "mul_u" 64)]).getLast? ≠
      some (Line.insn (.trunc_u 8)) :=
  ⟨rfl, by decide, rfl, rfl, by decide⟩

set_option maxHeartbeats 1600000 in
/-- C3 (amended): For every binary `BitAnd`, `BitOr`, `BitXor`, `LShift`,
`RShift`, and integer-by-integer `Add`/`Sub` — exactly the operators
dispatched through `emit_int_op` — whose output type is an integer type
of width 8 or 16 (i.e. strictly less than 32 bits), the emitted operator
code ends with `trunc_u{w}`, zeroing the upper bits of the stack slot.
(`Mul` is excluded: it always emits a bare `mul_u64`.) -/
theorem claim_C3_narrow_trunc (fuel s s1 s2 s' : Nat) (op : BinOp) (lhs rhs : Expr)
    (lt rt out_type : Ty) (w : Nat) (lc rc c : List Line)
    (hop : op = .bitAnd ∨ op = .bitOr ∨ op = .bitXor ∨ op = .lshift ∨ op = .rshift ∨
      op = .add ∨ op = .sub)
    (hlt : lhs.eval_type = .ok lt) (hrt : rhs.eval_type = .ok rt)
    (hlint : lt.isIntTy = true) (hrint : rt.isIntTy = true)
    (hout : out_type = .uint w ∨ out_type = .int w)
    (hw : w = 8 ∨ w = 16)
    (hlc : Expr.gen_code fuel lhs s = .ok (lc, s1))
    (hrc : Expr.gen_code fuel rhs s1 = .ok (rc, s2))
    (h : gen_bin_op (fuel + 1) op lhs rhs out_type s = .ok (c, s')) :
    ∃ pre, c = pre ++ [Line.insn (.trunc_u w)] := by
  cases lt <;> simp [Ty.isIntTy] at hlint
  all_goals cases rt <;> simp [Ty.isIntTy] at hrint
  all_goals {
    rcases hop with rfl | rfl | rfl | rfl | rfl | rfl | rfl <;>
      rcases hout with rfl | rfl <;>
        simp [gen_bin_op, hlc, hrc, hlt, hrt, okBindM, emit_int_op_uint_narrow,
          emit_int_op_int_narrow, hw] at h <;>
        exact ends_pair h.1
  }

/-- Witness for C3 at a concrete `u8 & u8` expression. -/
theorem claim_C3_witness :
    gen_bin_op 2 .bitAnd (.ref (.arg 0 (.uint 8))) (.ref (.arg 1 (.uint 8))) (.uint 8) 0 =
      .ok ([.insn (.get_arg 0), .insn (.get_arg 1), .insn (.op "and_u" 32),
            .insn (.trunc_u 8)], 0) ∧
    (∃ pre, ([Line.insn (.get_arg 0), .insn (.get_arg 1), .insn (.op "and_u" 32),
              .insn (.trunc_u 8)] : List Line) = pre ++ [Line.insn (.trunc_u 8)]) :=
  ⟨rfl,
   claim_C3_narrow_trunc 1 0 0 0 0 .bitAnd (.ref (.arg 0 (.uint 8)))
     (.ref (.arg 1 (.uint 8))) (.uint 8) (.uint 8) (.uint 8) 8
     [.insn (.get_arg 0)] [.insn (.get_arg 1)]
     [.insn (.get_arg 0), .insn (.get_arg 1), .insn (.op "and_u" 32), .insn (.trunc_u 8)]
     (Or.inl rfl) rfl rfl rfl rfl (Or.inl rfl) (Or.inl rfl) rfl rfl rfl⟩

/-- Counterexample for C4: with an `Array`-typed lhs and an integer rhs,
`Add` emits the scaled pointer arithmetic, but `Sub` — which the claim
says emits `push sizeof(E); mul_u64; sub_u64;` — has no `Array` arm and
is rejected (Rust `todo!`). -/
theorem claim_C4_counterexample :
    (Expr.ref (.arg 0 (.array (.uint 32) 4))).eval_type = .ok (.array (.uint 32) 4) ∧
    (Expr.ref (.arg 1 (.int 64))).eval_type = .ok (.int 64) ∧
    gen_bin_op 2 .add (.ref (.arg 0 (.array (.uint 32) 4))) (.ref (.arg 1 (.int 64)))
        (.array (.uint 32) 4) 0 =
      .ok ([.insn (.get_arg 0), .insn (.get_arg 1), .insn (.push 4),
            .insn (.op "mul_u" 64), .insn (.op "add_u" 64)], 0) ∧
    gen_bin_op 2 .sub (.ref (.arg 0 (.array (.uint 32) 4))) (.ref (.arg 1 (.int 64)))
        (.array (.uint 32) 4) 0 = .error (.panicked "todo: sub operands") :=
  ⟨rfl, rfl, rfl, rfl⟩

/-- C4 (amended): For `Add` with lhs of type `Pointer(E)` or
`Array{elem=E}` and integer rhs, the emitted code is lhs code, rhs code,
`push sizeof(E); mul_u64; add_u64;`.  For `Sub` the same holds with
`sub_u64` when the lhs is `Pointer(E)`, but an `Array`-typed lhs is
rejected (unimplemented `todo!`). -/
theorem claim_C4_pointer_arith (fuel s s1 s2 : Nat) (lhs rhs : Expr)
    (rt out_type : Ty) (wr : Nat) (lc rc : List Line)
    (hrt : rhs.eval_type = .ok rt)
    (hrint : rt = .uint wr ∨ rt = .int wr)
    (hlc : Expr.gen_code fuel lhs s = .ok (lc, s1))
    (hrc : Expr.gen_code fuel rhs s1 = .ok (rc, s2)) :
    (∀ E, lhs.eval_type = .ok (.pointer E) →
      gen_bin_op (fuel + 1) .add lhs rhs out_type s =
        .ok (lc ++ rc ++ [.insn (.push E.sizeof), .insn (.op "mul_u" 64),
          .insn (.op "add_u" 64)], s2)) ∧
    (∀ E k, lhs.eval_type = .ok (.array E k) →
      gen_bin_op (fuel + 1) .add lhs rhs out_type s =
        .ok (lc ++ rc ++ [.insn (.push E.sizeof), .insn (.op "mul_u" 64),
          .insn (.op "add_u" 64)], s2)) ∧
    (∀ E, lhs.eval_type = .ok (.pointer E) →
      gen_bin_op (fuel + 1) .sub lhs rhs out_type s =
        .ok (lc ++ rc ++ [.insn (.push E.sizeof), .insn (.op "mul_u" 64),
          .insn (.op "sub_u" 64)], s2)) ∧
    (∀ E k, lhs.eval_type = .ok (.array E k) →
      gen_bin_op (fuel + 1) .sub lhs rhs out_type s =
        .error (.panicked "todo: sub operands")) := by
  refine ⟨?_, ?_, ?_, ?_⟩
  · intro E hlt
    rcases hrint with rfl | rfl <;>
      simp [gen_bin_op, hlc, hrc, hlt, hrt, okBindM]
  · intro E k hlt
    rcases hrint with rfl | rfl <;>
      simp [gen_bin_op, hlc, hrc, hlt, hrt, okBindM]
  · intro E hlt
    rcases hrint with rfl | rfl <;>
      simp [gen_bin_op, hlc, hrc, hlt, hrt, okBindM]
  · intro E k hlt
    rcases hrint with rfl | rfl <;>
      simp [gen_bin_op, hlc, hrc, hlt, hrt, okBindM]

/-- Witness for C4 at `u32* + i64` (pointer arithmetic scaled by 4). -/
theorem claim_C4_witness :
    gen_bin_op 2 .add (.ref (.arg 0 (.pointer (.uint 32)))) (.ref (.arg 1 (.int 64)))
        (.pointer (.uint 32)) 0 =
      .ok ([.insn (.get_arg 0)] ++ [.insn (.get_arg 1)] ++
        [.insn (.push (Ty.uint 32).sizeof), .insn (.op "mul_u" 64),
         .insn (.op "add_u" 64)], 0) :=
  (claim_C4_pointer_arith 1 0 0 0 (.ref (.arg 0 (.pointer (.uint 32))))
    (.ref (.arg 1 (.int 64))) (.int 64) (.pointer (.uint 32)) 64
    [.insn (.get_arg 0)] [.insn (.get_arg 1)] rfl (Or.inr rfl) rfl rfl).1
    (.uint 32) rfl

/-- `emit_cmp_op` emits one comparison instruction whose mnemonic is the
signed one exactly when both operand types are signed and whose suffix is
32 for integer pairs of maximal width at most 32 and 64 otherwise. -/
theorem emit_cmp_op_spec (lt rt : Ty) (so uo : String) :
    emit_cmp_op lt rt so uo =
      [.insn (.op (if lt.is_signed && rt.is_signed then so else uo) (cmpBits lt rt))] := by
  cases lt <;> cases rt <;>
    simp [emit_cmp_op, Ty.is_signed, cmpBits] <;>
    first
    | rfl
    | (split_ifs <;> rfl)

/-- C8: For every comparison (`Eq`, `Ne`, `Lt`, `Le`, `Gt`, `Ge`), the
emitted instruction uses the signed mnemonic exactly when both operand
types are signed, with the 32-bit suffix when both operands are integer
types and `max(width(lhs), width(rhs)) ≤ 32` and the 64-bit suffix
otherwise (in particular for every non-integer operand pair). -/
theorem claim_C8_cmp_dispatch (fuel s s1 s2 : Nat) (op : BinOp) (lhs rhs : Expr)
    (lt rt out_type : Ty) (lc rc : List Line)
    (hop : op = .eq ∨ op = .ne ∨ op = .lt ∨ op = .le ∨ op = .gt ∨ op = .ge)
    (hlt : lhs.eval_type = .ok lt) (hrt : rhs.eval_type = .ok rt)
    (hlc : Expr.gen_code fuel lhs s = .ok (lc, s1))
    (hrc : Expr.gen_code fuel rhs s1 = .ok (rc, s2)) :
    gen_bin_op (fuel + 1) op lhs rhs out_type s =
      .ok (lc ++ rc ++ [.insn (.op
        (if lt.is_signed && rt.is_signed then cmpSignedName op else cmpUnsignedName op)
        (cmpBits lt rt))], s2) := by
  rcases hop with rfl | rfl | rfl | rfl | rfl | rfl <;>
    simp [gen_bin_op, hlc, hrc, hlt, hrt, okBindM, emit_cmp_op_spec, cmpSignedName,
      cmpUnsignedName]

/-- Witness for C8 at `i8 < i16` (both signed, widths ≤ 32: `lt_i32`). -/
theorem claim_C8_witness :
    gen_bin_op 2 .lt (.ref (.arg 0 (.int 8))) (.ref (.arg 1 (.int 16))) (.uint 8) 0 =
      .ok ([.insn (.get_arg 0), .insn (.get_arg 1), .insn (.op "lt_i" 32)], 0) :=
  claim_C8_cmp_dispatch 1 0 0 0 .lt (.ref (.arg 0 (.int 8))) (.ref (.arg 1 (.int 16)))
    (.int 8) (.int 16) (.uint 8) [.insn (.get_arg 0)] [.insn (.get_arg 1)]
    (Or.inr (Or.inr (Or.inl rfl))) rfl rfl rfl rfl

end Ncc
